import Mathlib

/-!
Verification of the rof2-unrestricted-classes mod-host framework against its
specification.  The definitions below are a shallow embedding of the C++
sources: `Hooks` models src/hooks.cpp, `Memory` models src/memory.h,
`PetWindow` models the SEH safe-read helpers of src/mods/pet_window.cpp,
`ModInterface` models the declarations of src/mods/mod_interface.h and
src/mods/multi_pet.h, and `Core` models the mod-host core, whose
implementation file is not in the tree (only src/core.h declares it), from
the specification's description.

External primitives (the Microsoft Detours transaction calls and
VirtualProtect) can fail at the operating system's discretion; each modelled
operation is therefore parameterised by an environment giving the error code
or success of every primitive call it makes, and returns, besides its result,
the trace of primitive calls it issued.  Addresses and bytes are `Nat`.
-/

namespace Rof2

/-! ## Detour manager (src/hooks.cpp) -/

namespace Hooks

/-- A record of the detour table `s_hooks` (src/hooks.cpp lines 20-27):
the hook's name, the address of the original-function slot, and the
replacement function. -/
structure HookRecord where
  name   : String
  target : Nat
  detour : Nat
deriving DecidableEq

/-- One primitive call into the Microsoft Detours library. -/
inductive DetourCall where
  | txBegin
  | updateThread
  | attach (target detour : Nat)
  | detach (target detour : Nat)
  | txCommit
  | txAbort
deriving DecidableEq

/-- Result of a detour-manager operation: the detour table after the call,
the boolean the C++ function returned, and the trace of Detours primitive
calls made. -/
structure DetourResult where
  hooks : List HookRecord
  ok    : Bool
  calls : List DetourCall
deriving DecidableEq

/-- Error codes (`NO_ERROR` = 0) returned by the three Detours primitives an
`Install` transaction calls. -/
structure InstallEnv where
  beginErr  : Int
  attachErr : Int
  commitErr : Int

/-- `Hooks::Install` (src/hooks.cpp lines 29-60): begin a transaction
(failure returns false), update the thread, attach (failure aborts and
returns false), commit (failure returns false); only on full success is the
record appended to the table and true returned. -/
def Install (env : InstallEnv) (hooks : List HookRecord)
    (name : String) (target detour : Nat) : DetourResult :=
  if env.beginErr ≠ 0 then
    ⟨hooks, false, [.txBegin]⟩
  else if env.attachErr ≠ 0 then
    ⟨hooks, false, [.txBegin, .updateThread, .attach target detour, .txAbort]⟩
  else if env.commitErr ≠ 0 then
    ⟨hooks, false, [.txBegin, .updateThread, .attach target detour, .txCommit]⟩
  else
    ⟨hooks ++ [⟨name, target, detour⟩], true,
      [.txBegin, .updateThread, .attach target detour, .txCommit]⟩

/-- Error codes for the primitives a `Remove` transaction calls. -/
structure RemoveEnv where
  beginErr  : Int
  detachErr : Int
  commitErr : Int

/-- `Hooks::Remove` (src/hooks.cpp lines 62-93): walk the table; at the first
record whose name matches, begin a transaction, detach, commit; on success
erase that record and return true, on any primitive failure return false with
the table unchanged.  If no record matches, return false having made no
primitive call. -/
def Remove (env : RemoveEnv) (name : String) : List HookRecord → DetourResult
  | [] => ⟨[], false, []⟩
  | r :: rest =>
    if r.name = name then
      if env.beginErr ≠ 0 then
        ⟨r :: rest, false, [.txBegin]⟩
      else if env.detachErr ≠ 0 then
        ⟨r :: rest, false,
          [.txBegin, .updateThread, .detach r.target r.detour, .txAbort]⟩
      else if env.commitErr ≠ 0 then
        ⟨r :: rest, false,
          [.txBegin, .updateThread, .detach r.target r.detour, .txCommit]⟩
      else
        ⟨rest, true,
          [.txBegin, .updateThread, .detach r.target r.detour, .txCommit]⟩
    else
      let p := Remove env name rest
      ⟨r :: p.hooks, p.ok, p.calls⟩

/-- Error codes for the primitives a `RemoveAll` transaction calls; the
per-record detach errors are only logged by the C++ loop, so they are a
function of the record. -/
structure RemoveAllEnv where
  beginErr  : Int
  detachErr : HookRecord → Int
  commitErr : Int

/-- `Hooks::RemoveAll` (src/hooks.cpp lines 95-127): if the table is empty,
return at once; begin a transaction (failure leaves the table intact);
detach every record in table order, merely logging per-record failures;
commit; only when the commit succeeds is the table cleared.  The C++
function returns void, so the result is the table plus the call trace. -/
def RemoveAll (env : RemoveAllEnv) (hooks : List HookRecord) :
    List HookRecord × List DetourCall :=
  if hooks.isEmpty then (hooks, [])
  else if env.beginErr ≠ 0 then (hooks, [.txBegin])
  else
    let calls := [DetourCall.txBegin, .updateThread] ++
      hooks.map (fun r => DetourCall.detach r.target r.detour) ++ [.txCommit]
    if env.commitErr ≠ 0 then (hooks, calls)
    else ([], calls)

end Hooks

/-! ## Memory utility (src/memory.h) -/

namespace Memory

/-- Process memory for the patching model: the byte stored at each address and
the protection constant of each address (`PAGE_EXECUTE_READWRITE` = 0x40). -/
structure MemState where
  mem  : Nat → Nat
  prot : Nat → Nat

/-- Model of the Win32 `VirtualProtect(address, len, newProt, &oldProtect)`
primitive: the operating system decides success (`ok`).  On success every
address of `[address, address + len)` gets protection `newProt` and the prior
protection at `address` (the first page of the region) is reported back
through `oldProtect`; on failure nothing changes and `none` is returned. -/
def VirtualProtect (ok : Bool) (s : MemState) (address len newProt : Nat) :
    Option (MemState × Nat) :=
  if ok then
    some ({ s with
            prot := fun a =>
              if address ≤ a ∧ a < address + len then newProt else s.prot a },
          s.prot address)
  else none

/-- Model of `memcpy(address, bytes, bytes.length)`: write the byte list into
memory starting at `address`; protection is not consulted (the C call assumes
the range was made writable). -/
def memcpy (s : MemState) (address : Nat) (bytes : List Nat) : MemState :=
  { s with
    mem := fun a =>
      if address ≤ a ∧ a < address + bytes.length then
        bytes.getD (a - address) 0
      else s.mem a }

/-- `Memory::PatchMemory(address, bytes, len)` (src/memory.h lines 19-29):
widen protection on `[address, address+len)` to `PAGE_EXECUTE_READWRITE`
(failure returns false at once), `memcpy` the first `len` bytes in, then call
`VirtualProtect` again to restore the recorded prior protection — ignoring
that second call's result — and return true.  `vp1ok` and `vp2ok` are the
operating system's verdicts on the two `VirtualProtect` calls. -/
def PatchMemory (vp1ok vp2ok : Bool) (s : MemState)
    (address : Nat) (bytes : List Nat) (len : Nat) : MemState × Bool :=
  match VirtualProtect vp1ok s address len 0x40 with
  | none => (s, false)
  | some (s1, oldProtect) =>
    let s2 := memcpy s1 address (bytes.take len)
    match VirtualProtect vp2ok s2 address len oldProtect with
    | none => (s2, true)
    | some (s3, _) => (s3, true)

/-- `Memory::ReadMemory<uint8_t>` iterated: the `len` bytes stored at
`[address, address + len)`.  The typed read in src/memory.h lines 32-36 is an
unchecked dereference, so it is total on the model's memory. -/
def readBytes (s : MemState) (address len : Nat) : List Nat :=
  (List.range len).map fun i => s.mem (address + i)

end Memory

/-! ## SEH safe-read helpers (src/mods/pet_window.cpp lines 159-196) -/

namespace PetWindow

/-- The process address space as the safe readers see it: `none` at an
address means a load from it raises an access-violation fault. -/
def PMem : Type := Nat → Option Nat

/-- A 4-byte load from `addr`: it faults (yielding `none`) as soon as any
byte of the dword is unmapped, otherwise produces the four bytes in address
order. -/
def readDword (mem : PMem) (addr : Nat) : Option (List Nat) := do
  let b0 ← mem addr
  let b1 ← mem (addr + 1)
  let b2 ← mem (addr + 2)
  let b3 ← mem (addr + 3)
  pure [b0, b1, b2, b3]

/-- Little-endian value of a byte list. -/
def fromLE (bs : List Nat) : Nat :=
  bs.foldr (fun b acc => b + 256 * acc) 0

/-- `SafeReadUint32(addr, out)` (src/mods/pet_window.cpp lines 159-170): a
4-byte load inside `__try`; an access violation is swallowed by the
`__except` handler and reported as failure, and `out` is written only on
success — modelled by returning `none` exactly when the load faults. -/
def SafeReadUint32 (mem : PMem) (addr : Nat) : Option Nat :=
  (readDword mem addr).map fromLE

/-- `SafeReadPtr` (src/mods/pet_window.cpp lines 172-182): same guarded load
at `uintptr_t` width, 4 bytes in this 32-bit process. -/
def SafeReadPtr (mem : PMem) (addr : Nat) : Option Nat :=
  (readDword mem addr).map fromLE

/-- `SafeReadInt` (src/mods/pet_window.cpp lines 185-196): the guarded
4-byte load interpreted as a two's-complement signed 32-bit integer. -/
def SafeReadInt (mem : PMem) (addr : Nat) : Option Int :=
  (readDword mem addr).map fun bs =>
    if fromLE bs < 2 ^ 31 then (fromLE bs : Int) else (fromLE bs : Int) - 2 ^ 32

/-- A mapped local `uint32_t` variable holding value `v`, stored
little-endian at `addr` over an arbitrary surrounding memory. -/
def storeU32 (mem : PMem) (addr v : Nat) : PMem := fun a =>
  if a = addr then some (v % 256)
  else if a = addr + 1 then some (v / 256 % 256)
  else if a = addr + 2 then some (v / 65536 % 256)
  else if a = addr + 3 then some (v / 16777216 % 256)
  else mem a

/-- The everywhere-unmapped address space (no page of the range around
address 0 is readable). -/
def unmappedAll : PMem := fun _ => none

end PetWindow

/-! ## Mod interface declarations (src/mods/mod_interface.h, src/mods/multi_pet.h) -/

namespace ModInterface

/-- The pure-virtual member functions the abstract base class `IMod`
declares (src/mods/mod_interface.h lines 13-27), destructor aside: exactly
these five, in declaration order. -/
def imodDeclaredMethods : List String :=
  ["GetName", "Initialize", "Shutdown", "OnPulse", "OnIncomingMessage"]

/-- The eight capabilities the specification's data model assigns to a Mod —
name, initialize, shutdown, per-frame tick, incoming-message filter,
spawn-added, spawn-removed, game-state-changed — named by the member
functions the code uses for them. -/
def specCapabilityMethods : List String :=
  ["GetName", "Initialize", "Shutdown", "OnPulse", "OnIncomingMessage",
   "OnAddSpawn", "OnRemoveSpawn", "OnSetGameState"]

/-- The member functions `MultiPet` declares with the `override` specifier
against `IMod` (src/mods/multi_pet.h lines 42-49).  C++ rejects an
`override` declaration whose base class has no matching virtual, so each of
these must be virtual in the interface the framework compiles against. -/
def multiPetOverrideMethods : List String :=
  ["GetName", "Initialize", "Shutdown", "OnPulse", "OnIncomingMessage",
   "OnAddSpawn", "OnRemoveSpawn", "OnSetGameState"]

end ModInterface

/-! ## Mod host core and event bridge

`Core::Initialize`, `Core::Shutdown` and the event-bridge detours are
declared in src/core.h and src/mods/mod_interface.h but their implementation
file (core.cpp) is not in the tree, so they are modelled from the
specification. -/

namespace Core

/-- An observable call the mod host makes during its lifecycle, with mods
identified by a numeric id. -/
inductive CoreEvent where
  | modInit (m : Nat)
  | installBridgeDetours
  | removeAllDetours
  | modShutdown (m : Nat)
deriving DecidableEq

/-- Modelled from the spec: `Core::Initialize` (declared src/core.h lines
17-19, definition absent from src/) — "For each registered mod in
registration order, call `initialize()`; log the result.  Install
event-bridge detours."  The result is the trace of calls made. -/
def Initialize (registry : List Nat) : List CoreEvent :=
  registry.map CoreEvent.modInit ++ [CoreEvent.installBridgeDetours]

/-- Modelled from the spec: `Core::Shutdown` (declared src/core.h lines
21-23, definition absent from src/) — "Remove all installed detours.  For
each registered mod in reverse registration order, call `shutdown()`."  The
result is the trace of calls made. -/
def Shutdown (registry : List Nat) : List CoreEvent :=
  CoreEvent.removeAllDetours :: registry.reverse.map CoreEvent.modShutdown

/-- The mod id of a `modInit` event. -/
def CoreEvent.initOf : CoreEvent → Option Nat
  | .modInit m => some m
  | _ => none

/-- The mod id of a `modShutdown` event. -/
def CoreEvent.shutdownOf : CoreEvent → Option Nat
  | .modShutdown m => some m
  | _ => none

/-- An incoming wire-protocol message as the bridge presents it: opcode,
buffer and size. -/
structure Message where
  opcode : Nat
  buffer : List Nat
  size   : Nat
deriving DecidableEq

/-- Modelled from the spec: the incoming-message event bridge (installed by
`Core::Initialize`, definition absent from src/) — "each mod's handler
returns pass through or suppress.  The bridge stops iterating on the first
suppress and does not invoke the original host handler.  If all mods return
pass through, the bridge invokes the original host handler with unmodified
arguments."  A registered mod is a pair of its id and its
`OnIncomingMessage` handler, `true` meaning pass through and `false`
suppress exactly as documented at src/mods/mod_interface.h lines 24-27.
The result is the ids of the mods whose handlers were invoked, in invocation
order, and the argument the original host handler received (`none` when it
was not invoked). -/
def dispatchIncoming :
    List (Nat × (Message → Bool)) → Message → List Nat × Option Message
  | [], msg => ([], some msg)
  | (id, h) :: rest, msg =>
    if h msg then
      let p := dispatchIncoming rest msg
      (id :: p.1, p.2)
    else ([id], none)

end Core

/-! ## Theorems: detour manager -/

namespace Hooks

/-- Helper: `Remove` on a table with no matching name returns the table
unchanged, reports failure, and makes no primitive call. -/
theorem Remove_not_found (env : RemoveEnv) (name : String) :
    ∀ hooks : List HookRecord, (∀ x ∈ hooks, x.name ≠ name) →
      Remove env name hooks = ⟨hooks, false, []⟩ := by
  intro hooks
  induction hooks with
  | nil => intro _; rfl
  | cons r rest ih =>
    intro hall
    have hr : r.name ≠ name := hall r (List.mem_cons_self r rest)
    have hrest := ih fun x hx => hall x (List.mem_cons_of_mem r hx)
    simp [Remove, hr, hrest]

/-- Helper: when every primitive succeeds, `Remove` erases exactly the first
record whose name matches, in one begin/detach/commit transaction. -/
theorem Remove_found (env : RemoveEnv) (name : String)
    (hb : env.beginErr = 0) (hd : env.detachErr = 0) (hc : env.commitErr = 0) :
    ∀ pre : List HookRecord, ∀ r : HookRecord, ∀ post : List HookRecord,
      r.name = name → (∀ x ∈ pre, x.name ≠ name) →
      Remove env name (pre ++ r :: post) =
        ⟨pre ++ post, true,
          [.txBegin, .updateThread, .detach r.target r.detour, .txCommit]⟩ := by
  intro pre
  induction pre with
  | nil =>
    intro r post hr _
    simp [Remove, hr, hb, hd, hc]
  | cons x xs ih =>
    intro r post hr hall
    have hx : x.name ≠ name := hall x (List.mem_cons_self x xs)
    have := ih r post hr fun y hy => hall y (List.mem_cons_of_mem x hy)
    simp [Remove, hx, this]

/-- Claim C1: `Hooks::Install` is transactional — when the begin, attach and
commit phases all succeed it appends exactly the one record
(name, target, detour) to the detour table and returns true; when any phase
fails it returns false and leaves the table exactly as it was. -/
theorem install_transactional (env : InstallEnv) (hooks : List HookRecord)
    (name : String) (target detour : Nat) :
    (env.beginErr = 0 ∧ env.attachErr = 0 ∧ env.commitErr = 0 →
      Install env hooks name target detour =
        ⟨hooks ++ [⟨name, target, detour⟩], true,
          [.txBegin, .updateThread, .attach target detour, .txCommit]⟩) ∧
    (¬(env.beginErr = 0 ∧ env.attachErr = 0 ∧ env.commitErr = 0) →
      (Install env hooks name target detour).hooks = hooks ∧
      (Install env hooks name target detour).ok = false) := by
  constructor
  · rintro ⟨h1, h2, h3⟩
    simp [Install, h1, h2, h3]
  · intro h
    by_cases h1 : env.beginErr = 0
    · by_cases h2 : env.attachErr = 0
      · have h3 : env.commitErr ≠ 0 := fun hc => h ⟨h1, h2, hc⟩
        simp [Install, h1, h2, h3]
      · simp [Install, h1, h2]
    · simp [Install, h1]

/-- Witness for C1 at the spec's scenario S3: installing `h1` and `h2`
succeeds and appends each; a third install failing at commit (error 31)
leaves the table containing exactly the `h1` and `h2` records. -/
theorem install_transactional_witness :
    Install ⟨0, 0, 0⟩ [] "h1" 100 200 =
      ⟨[⟨"h1", 100, 200⟩], true,
        [.txBegin, .updateThread, .attach 100 200, .txCommit]⟩ ∧
    Install ⟨0, 0, 0⟩ [⟨"h1", 100, 200⟩] "h2" 101 201 =
      ⟨[⟨"h1", 100, 200⟩, ⟨"h2", 101, 201⟩], true,
        [.txBegin, .updateThread, .attach 101 201, .txCommit]⟩ ∧
    (Install ⟨0, 0, 31⟩ [⟨"h1", 100, 200⟩, ⟨"h2", 101, 201⟩] "h3" 102 202).hooks =
      [⟨"h1", 100, 200⟩, ⟨"h2", 101, 201⟩] ∧
    (Install ⟨0, 0, 31⟩ [⟨"h1", 100, 200⟩, ⟨"h2", 101, 201⟩] "h3" 102 202).ok =
      false := by
  refine ⟨(install_transactional _ _ _ _ _).1 ⟨rfl, rfl, rfl⟩,
    (install_transactional _ _ _ _ _).1 ⟨rfl, rfl, rfl⟩,
    ((install_transactional _ _ _ _ _).2 (by decide)).1,
    ((install_transactional _ _ _ _ _).2 (by decide)).2⟩

/-- Claim C5: `Hooks::RemoveAll` detaches every record of the table inside a
single begin/commit transaction; when the commit succeeds the table is left
empty, and when the transaction cannot be begun or committed the table is
exactly what it was before the call. -/
theorem removeAll_spec (env : RemoveAllEnv) (hooks : List HookRecord) :
    (env.beginErr = 0 ∧ env.commitErr = 0 →
      (RemoveAll env hooks).1 = [] ∧
      (hooks ≠ [] →
        (RemoveAll env hooks).2 =
          [DetourCall.txBegin, .updateThread] ++
            hooks.map (fun r => DetourCall.detach r.target r.detour) ++
            [.txCommit])) ∧
    (env.beginErr ≠ 0 ∨ env.commitErr ≠ 0 →
      (RemoveAll env hooks).1 = hooks) := by
  constructor
  · rintro ⟨hb, hc⟩
    by_cases he : hooks = []
    · subst he
      exact ⟨rfl, fun h => absurd rfl h⟩
    · have he' : hooks.isEmpty = false := by
        simpa [List.isEmpty_iff] using he
      refine ⟨?_, fun _ => ?_⟩ <;> simp [RemoveAll, he', hb, hc]
  · intro h
    by_cases he : hooks = []
    · subst he; rfl
    · have he' : hooks.isEmpty = false := by
        simpa [List.isEmpty_iff] using he
      rcases h with hb | hc
      · simp [RemoveAll, he', hb]
      · by_cases hb : env.beginErr = 0
        · simp [RemoveAll, he', hb, hc]
        · simp [RemoveAll, he', hb]

/-- Witness for C5: on the table holding `h1` and `h2`, a fully successful
`RemoveAll` detaches both records between one transaction begin and one
commit and empties the table, while one whose commit fails (error 5) leaves
both records in place. -/
theorem removeAll_spec_witness :
    (RemoveAll ⟨0, fun _ => 0, 0⟩ [⟨"h1", 100, 200⟩, ⟨"h2", 101, 201⟩]).1 =
      [] ∧
    (RemoveAll ⟨0, fun _ => 0, 0⟩ [⟨"h1", 100, 200⟩, ⟨"h2", 101, 201⟩]).2 =
      [.txBegin, .updateThread, .detach 100 200, .detach 101 201, .txCommit] ∧
    (RemoveAll ⟨0, fun _ => 0, 5⟩ [⟨"h1", 100, 200⟩, ⟨"h2", 101, 201⟩]).1 =
      [⟨"h1", 100, 200⟩, ⟨"h2", 101, 201⟩] := by
  refine ⟨((removeAll_spec _ _).1 ⟨rfl, rfl⟩).1,
    ?_,
    (removeAll_spec _ _).2 (Or.inr (by decide))⟩
  have h := ((removeAll_spec ⟨0, fun _ => 0, 0⟩
      [⟨"h1", 100, 200⟩, ⟨"h2", 101, 201⟩]).1 ⟨rfl, rfl⟩).2 (by decide)
  simpa using h

/-- Claim C6: two successful installs under the same name append two
distinct entries; a successful `Remove(name)` erases exactly the first entry
whose name matches, leaving earlier non-matching and all later entries; and
`Remove(name)` with no matching entry returns false with the table unchanged
and no transaction opened. -/
theorem remove_first_match (ienv : InstallEnv) (renv : RemoveEnv)
    (hooks pre post : List HookRecord) (r : HookRecord) (name : String)
    (t₁ d₁ t₂ d₂ : Nat) :
    (ienv.beginErr = 0 ∧ ienv.attachErr = 0 ∧ ienv.commitErr = 0 →
      (Install ienv (Install ienv hooks name t₁ d₁).hooks name t₂ d₂).hooks =
        hooks ++ [⟨name, t₁, d₁⟩, ⟨name, t₂, d₂⟩]) ∧
    (renv.beginErr = 0 ∧ renv.detachErr = 0 ∧ renv.commitErr = 0 →
      r.name = name → (∀ x ∈ pre, x.name ≠ name) →
      Remove renv name (pre ++ r :: post) =
        ⟨pre ++ post, true,
          [.txBegin, .updateThread, .detach r.target r.detour, .txCommit]⟩) ∧
    ((∀ x ∈ hooks, x.name ≠ name) →
      Remove renv name hooks = ⟨hooks, false, []⟩) := by
  refine ⟨?_, ?_, fun h => Remove_not_found renv name hooks h⟩
  · rintro ⟨h1, h2, h3⟩
    simp [Install, h1, h2, h3]
  · rintro ⟨h1, h2, h3⟩ hr hall
    exact Remove_found renv name h1 h2 h3 pre r post hr hall

/-- Witness for C6: installing "dup" twice over an empty table yields two
entries of that name; removing "dup" erases only the first of them; removing
a name that is absent returns false and changes nothing. -/
theorem remove_first_match_witness :
    (Install ⟨0, 0, 0⟩ (Install ⟨0, 0, 0⟩ [] "dup" 1 2).hooks "dup" 3 4).hooks =
      [⟨"dup", 1, 2⟩, ⟨"dup", 3, 4⟩] ∧
    Remove ⟨0, 0, 0⟩ "dup" [⟨"other", 9, 9⟩, ⟨"dup", 1, 2⟩, ⟨"dup", 3, 4⟩] =
      ⟨[⟨"other", 9, 9⟩, ⟨"dup", 3, 4⟩], true,
        [.txBegin, .updateThread, .detach 1 2, .txCommit]⟩ ∧
    Remove ⟨0, 0, 0⟩ "ghost" [⟨"dup", 1, 2⟩] =
      ⟨[⟨"dup", 1, 2⟩], false, []⟩ := by
  refine ⟨(remove_first_match ⟨0, 0, 0⟩ ⟨0, 0, 0⟩ [] [] [] ⟨"dup", 1, 2⟩ "dup"
      1 2 3 4).1 ⟨rfl, rfl, rfl⟩, ?_, ?_⟩
  · exact (remove_first_match ⟨0, 0, 0⟩ ⟨0, 0, 0⟩ []
      [⟨"other", 9, 9⟩] [⟨"dup", 3, 4⟩] ⟨"dup", 1, 2⟩ "dup" 1 2 3 4).2.1
      ⟨rfl, rfl, rfl⟩ rfl (by decide)
  · exact (remove_first_match ⟨0, 0, 0⟩ ⟨0, 0, 0⟩ [⟨"dup", 1, 2⟩] [] []
      ⟨"dup", 1, 2⟩ "ghost" 1 2 3 4).2.2 (by decide)

end Hooks

/-! ## Theorems: memory utility -/

namespace Memory

/-- Helper: reading back the exact range just written by `memcpy` returns
the bytes written. -/
theorem readBytes_memcpy (s : MemState) (address : Nat) (bytes : List Nat) :
    readBytes (memcpy s address bytes) address bytes.length = bytes := by
  apply List.ext_getElem
  · simp [readBytes]
  · intro i h1 h2
    simp only [readBytes, memcpy, List.getElem_map, List.getElem_range]
    have hlen : i < bytes.length := by simpa [readBytes] using h1
    have hcond : address ≤ address + i ∧ address + i < address + bytes.length := by
      omega
    simp only [hcond, and_self, if_pos, Nat.add_sub_cancel_left]
    exact List.getD_eq_getElem bytes 0 hlen

/-- Helper: `memcpy` leaves protections alone. -/
theorem memcpy_prot (s : MemState) (address : Nat) (bytes : List Nat) :
    (memcpy s address bytes).prot = s.prot := rfl

/-- Claim C4 (amended): when `Memory::PatchMemory(address, bytes, len)` with
`len = bytes.length` returns true, reading `len` bytes at `address` yields
exactly `bytes`; and provided the restoring `VirtualProtect` call succeeds
and the patched range had uniform protection before the call, every
address's protection after the call equals its protection before. -/
theorem patchMemory_roundtrip (vp1 vp2 : Bool) (s : MemState)
    (address : Nat) (bytes : List Nat)
    (hok : (PatchMemory vp1 vp2 s address bytes bytes.length).2 = true) :
    readBytes (PatchMemory vp1 vp2 s address bytes bytes.length).1 address
        bytes.length = bytes ∧
    (vp2 = true →
      (∀ a, address ≤ a → a < address + bytes.length → s.prot a = s.prot address) →
      ∀ a, (PatchMemory vp1 vp2 s address bytes bytes.length).1.prot a =
        s.prot a) := by
  have hvp1 : vp1 = true := by
    by_contra h
    rw [Bool.not_eq_true] at h
    subst h
    simp [PatchMemory, VirtualProtect] at hok
  subst hvp1
  constructor
  · cases vp2 with
    | false =>
      simpa [PatchMemory, VirtualProtect, List.take_length] using
        readBytes_memcpy
          { s with prot := fun a =>
              if address ≤ a ∧ a < address + bytes.length then 0x40
              else s.prot a }
          address bytes
    | true =>
      have h := readBytes_memcpy
          { s with prot := fun a =>
              if address ≤ a ∧ a < address + bytes.length then 0x40
              else s.prot a }
          address bytes
      simpa [PatchMemory, VirtualProtect, List.take_length, readBytes,
        memcpy] using h
  · intro hvp2 huni a
    subst hvp2
    simp only [PatchMemory, VirtualProtect, if_pos, List.take_length, memcpy]
    by_cases hin : address ≤ a ∧ a < address + bytes.length
    · simp only [hin, and_self, if_pos]
      exact (huni a hin.1 hin.2).symm
    · simp only [hin, if_neg, not_false_eq_true]

/-- Witness for C4: bytes 0x90 0x90 patched at address 16 of a memory whose
every byte is 0x74 under protection 2 read back as 0x90 0x90, and with the
restore succeeding over the uniformly protected range the protection at
every probed address is 2 again. -/
theorem patchMemory_roundtrip_witness :
    readBytes (PatchMemory true true ⟨fun _ => 0x74, fun _ => 2⟩ 16
        [0x90, 0x90] 2).1 16 2 = [0x90, 0x90] ∧
    (PatchMemory true true ⟨fun _ => 0x74, fun _ => 2⟩ 16
        [0x90, 0x90] 2).1.prot 16 = 2 ∧
    (PatchMemory true true ⟨fun _ => 0x74, fun _ => 2⟩ 16
        [0x90, 0x90] 2).1.prot 17 = 2 := by
  have h := patchMemory_roundtrip true true ⟨fun _ => 0x74, fun _ => 2⟩ 16
    [0x90, 0x90] (by rfl)
  exact ⟨h.1, (h.2 rfl (fun a _ _ => rfl) 16), (h.2 rfl (fun a _ _ => rfl) 17)⟩

/-- Claim C4 counterexample: the claim's unconditional protection-restoration
clause fails on the code.  First, when the restoring `VirtualProtect` fails
(its result is ignored), `PatchMemory` still returns true yet the patched
address is left at protection 0x40 instead of its prior 2.  Second, even
when the restore succeeds, a range whose two addresses had protections 2 and
4 ends with both at 2 — the restore applies the first page's recorded old
protection to the whole range. -/
theorem patchMemory_protection_counterexample :
    ((PatchMemory true false ⟨fun _ => 0, fun _ => 2⟩ 16 [0x90, 0x90] 2).2 =
        true ∧
      (PatchMemory true false ⟨fun _ => 0, fun _ => 2⟩ 16
          [0x90, 0x90] 2).1.prot 16 = 0x40 ∧
      (2 : Nat) ≠ 0x40) ∧
    ((PatchMemory true true
        ⟨fun _ => 0, fun a => if a ≤ 16 then 2 else 4⟩ 16 [0x90, 0x90] 2).2 =
        true ∧
      (PatchMemory true true
          ⟨fun _ => 0, fun a => if a ≤ 16 then 2 else 4⟩ 16
          [0x90, 0x90] 2).1.prot 17 = 2 ∧
      (if (17 : Nat) ≤ 16 then 2 else 4) = 4) := by
  refine ⟨⟨rfl, ?_, by decide⟩, ⟨rfl, ?_, by decide⟩⟩ <;>
    simp [PatchMemory, VirtualProtect, memcpy]

/-- Claim C8 (amended): `Memory::PatchMemory(address, bytes, 0)` returns
true and leaves every byte and every protection unchanged provided the
initial protection-widening `VirtualProtect` call succeeds; when that call
fails, it returns false (still changing nothing). -/
theorem patchMemory_zero_length (vp1 vp2 : Bool) (s : MemState)
    (address : Nat) (bytes : List Nat) :
    (vp1 = true →
      (PatchMemory vp1 vp2 s address bytes 0).2 = true ∧
      ∀ a, (PatchMemory vp1 vp2 s address bytes 0).1.mem a = s.mem a ∧
        (PatchMemory vp1 vp2 s address bytes 0).1.prot a = s.prot a) ∧
    (vp1 = false → PatchMemory vp1 vp2 s address bytes 0 = (s, false)) := by
  constructor
  · intro h1
    subst h1
    refine ⟨by cases vp2 <;> rfl, fun a => ?_⟩
    have hfalse : ¬(address ≤ a ∧ a < address) := by omega
    have hfalse' : ¬(address ≤ a ∧ a < address + 0) := by omega
    cases vp2 <;>
      simp [PatchMemory, VirtualProtect, memcpy, hfalse, hfalse']
  · intro h1
    subst h1
    rfl

/-- Witness for C8: with both system calls succeeding, a zero-length patch
of bytes 0x90 0x90 at address 16 reports success and the byte and the
protection at address 16 still read 0x74 and 2; with the initial call
failing it reports false. -/
theorem patchMemory_zero_length_witness :
    (PatchMemory true true ⟨fun _ => 0x74, fun _ => 2⟩ 16 [0x90, 0x90] 0).2 =
      true ∧
    (PatchMemory true true ⟨fun _ => 0x74, fun _ => 2⟩ 16
        [0x90, 0x90] 0).1.mem 16 = 0x74 ∧
    (PatchMemory true true ⟨fun _ => 0x74, fun _ => 2⟩ 16
        [0x90, 0x90] 0).1.prot 16 = 2 ∧
    PatchMemory false true ⟨fun _ => 0x74, fun _ => 2⟩ 16 [0x90, 0x90] 0 =
      (⟨fun _ => 0x74, fun _ => 2⟩, false) := by
  have h := (patchMemory_zero_length true true ⟨fun _ => 0x74, fun _ => 2⟩ 16
    [0x90, 0x90]).1 rfl
  exact ⟨h.1, (h.2 16).1, (h.2 16).2,
    (patchMemory_zero_length false true ⟨fun _ => 0x74, fun _ => 2⟩ 16
      [0x90, 0x90]).2 rfl⟩

/-- Claim C8 counterexample: the claim promises success for every address,
but when the initial `VirtualProtect` call fails — as it does for an
unmapped address such as 0 — `PatchMemory` returns false. -/
theorem patchMemory_zero_length_counterexample :
    (PatchMemory false true ⟨fun _ => 0, fun _ => 2⟩ 0 [] 0).2 = false := rfl

/-- Claim C10: `Memory::PatchMemory` returns false exactly when the initial
protection-widening `VirtualProtect` call fails; the restoring call's result
is ignored, so even with the restore failing the function reports true. -/
theorem patchMemory_result_ignores_restore (vp1 vp2 : Bool) (s : MemState)
    (address : Nat) (bytes : List Nat) (len : Nat) :
    (PatchMemory vp1 vp2 s address bytes len).2 = vp1 ∧
    (PatchMemory true false s address bytes len).2 = true := by
  cases vp1 <;> cases vp2 <;> exact ⟨rfl, rfl⟩

end Memory

/-! ## Theorems: SEH safe reads -/

namespace PetWindow

/-- Helper: the guarded dword load faults whenever any of its four bytes is
unmapped. -/
theorem readDword_eq_none (mem : PMem) (addr : Nat)
    (h : mem addr = none ∨ mem (addr + 1) = none ∨ mem (addr + 2) = none ∨
      mem (addr + 3) = none) :
    readDword mem addr = none := by
  unfold readDword
  cases h0 : mem addr <;> cases h1 : mem (addr + 1) <;>
    cases h2 : mem (addr + 2) <;> cases h3 : mem (addr + 3) <;>
    simp_all

/-- Helper: the guarded dword load over four mapped bytes yields them in
address order. -/
theorem readDword_eq_some (mem : PMem) (addr b0 b1 b2 b3 : Nat)
    (h0 : mem addr = some b0) (h1 : mem (addr + 1) = some b1)
    (h2 : mem (addr + 2) = some b2) (h3 : mem (addr + 3) = some b3) :
    readDword mem addr = some [b0, b1, b2, b3] := by
  simp [readDword, h0, h1, h2, h3]

/-- Helper: the four bytes a stored local `uint32_t` occupies. -/
theorem storeU32_bytes (mem : PMem) (addr v : Nat) :
    storeU32 mem addr v addr = some (v % 256) ∧
    storeU32 mem addr v (addr + 1) = some (v / 256 % 256) ∧
    storeU32 mem addr v (addr + 2) = some (v / 65536 % 256) ∧
    storeU32 mem addr v (addr + 3) = some (v / 16777216 % 256) := by
  refine ⟨?_, ?_, ?_, ?_⟩ <;> unfold storeU32
  · rw [if_pos rfl]
  · rw [if_neg (by omega), if_pos rfl]
  · rw [if_neg (by omega), if_neg (by omega), if_pos rfl]
  · rw [if_neg (by omega), if_neg (by omega), if_neg (by omega), if_pos rfl]

/-- Claim C7: each safe read (`SafeReadUint32`, `SafeReadPtr`, `SafeReadInt`)
over an address any byte of which is unmapped returns failure — the fault is
absorbed, never propagated, and nothing is written — in particular over the
wholly unmapped address 0; and a safe read of a mapped local `uint32_t`
returns success with exactly that variable's value. -/
theorem safeRead_spec (mem : PMem) (addr v : Nat) :
    ((mem addr = none ∨ mem (addr + 1) = none ∨ mem (addr + 2) = none ∨
        mem (addr + 3) = none) →
      SafeReadUint32 mem addr = none ∧ SafeReadPtr mem addr = none ∧
        SafeReadInt mem addr = none) ∧
    (SafeReadUint32 unmappedAll 0 = none ∧ SafeReadPtr unmappedAll 0 = none ∧
      SafeReadInt unmappedAll 0 = none) ∧
    (v < 2 ^ 32 → SafeReadUint32 (storeU32 mem addr v) addr = some v) := by
  refine ⟨fun h => ?_, ?_, fun hv => ?_⟩
  · have hn := readDword_eq_none mem addr h
    exact ⟨by simp [SafeReadUint32, hn], by simp [SafeReadPtr, hn],
      by simp [SafeReadInt, hn]⟩
  · have hn := readDword_eq_none unmappedAll 0 (Or.inl rfl)
    exact ⟨by simp [SafeReadUint32, hn], by simp [SafeReadPtr, hn],
      by simp [SafeReadInt, hn]⟩
  · obtain ⟨e0, e1, e2, e3⟩ := storeU32_bytes mem addr v
    have hr := readDword_eq_some (storeU32 mem addr v) addr _ _ _ _ e0 e1 e2 e3
    have hval : fromLE [v % 256, v / 256 % 256, v / 65536 % 256,
        v / 16777216 % 256] = v := by
      simp only [fromLE, List.foldr]
      omega
    simp [SafeReadUint32, hr, hval]

/-- Witness for C7: the safe dword read at the unmapped address 0 fails, and
the safe dword read of a local `uint32_t` holding 3735928559 at address 4096
succeeds with 3735928559. -/
theorem safeRead_spec_witness :
    SafeReadUint32 unmappedAll 0 = none ∧
    SafeReadUint32 (storeU32 unmappedAll 4096 3735928559) 4096 =
      some 3735928559 := by
  exact ⟨((safeRead_spec unmappedAll 0 0).1 (Or.inl rfl)).1,
    (safeRead_spec unmappedAll 4096 3735928559).2.2 (by norm_num)⟩

end PetWindow

/-! ## Theorems: mod interface declarations -/

namespace ModInterface

/-- Claim C9 (code evidence): the `IMod` interface of
src/mods/mod_interface.h declares only five of the specification's eight mod
capabilities — the spawn-added, spawn-removed and game-state-changed
operations are absent — even though `MultiPet` (src/mods/multi_pet.h)
declares exactly those three members with the `override` specifier, which
requires a matching virtual in the base class. -/
theorem imod_missing_capabilities :
    "OnAddSpawn" ∈ multiPetOverrideMethods ∧
    "OnRemoveSpawn" ∈ multiPetOverrideMethods ∧
    "OnSetGameState" ∈ multiPetOverrideMethods ∧
    "OnAddSpawn" ∉ imodDeclaredMethods ∧
    "OnRemoveSpawn" ∉ imodDeclaredMethods ∧
    "OnSetGameState" ∉ imodDeclaredMethods ∧
    ¬ specCapabilityMethods ⊆ imodDeclaredMethods := by
  refine ⟨by decide, by decide, by decide, by decide, by decide, by decide,
    fun h => ?_⟩
  have := h (show "OnAddSpawn" ∈ specCapabilityMethods by decide)
  revert this
  decide

end ModInterface

/-! ## Theorems: mod host core and event bridge -/

namespace Core

/-- Helper: projecting the initialised mod ids out of an init-call list
recovers the registry. -/
theorem filterMap_initOf_map (l : List Nat) :
    List.filterMap (CoreEvent.initOf ∘ CoreEvent.modInit) l = l := by
  induction l with
  | nil => rfl
  | cons a t ih => simp [CoreEvent.initOf, Function.comp, ih]

/-- Helper: projecting the shut-down mod ids out of a shutdown-call list
recovers the list. -/
theorem filterMap_shutdownOf_map (l : List Nat) :
    List.filterMap (CoreEvent.shutdownOf ∘ CoreEvent.modShutdown) l = l := by
  induction l with
  | nil => rfl
  | cons a t ih => simp [CoreEvent.shutdownOf, Function.comp, ih]

/-- Helper: an init-call list contains no shutdown event to project. -/
theorem filterMap_shutdownOf_map_init (l : List Nat) :
    List.filterMap (CoreEvent.shutdownOf ∘ CoreEvent.modInit) l = [] := by
  induction l with
  | nil => rfl
  | cons a t ih => simp [CoreEvent.shutdownOf, Function.comp, ih]

/-- Helper: occurrence counts transfer through the `modInit` wrapping. -/
theorem count_map_modInit (l : List Nat) (m : Nat) :
    (l.map CoreEvent.modInit).count (CoreEvent.modInit m) = l.count m := by
  induction l with
  | nil => rfl
  | cons a t ih => simp [List.count_cons, ih]

/-- Helper: occurrence counts transfer through the `modShutdown` wrapping. -/
theorem count_map_modShutdown (l : List Nat) (m : Nat) :
    (l.map CoreEvent.modShutdown).count (CoreEvent.modShutdown m) =
      l.count m := by
  induction l with
  | nil => rfl
  | cons a t ih => simp [List.count_cons, ih]

/-- Claim C2: after `Core::Initialize` every registered mod's `initialize()`
has run exactly as often as it is registered, in registration order, and no
`shutdown()` has run; after `Core::Shutdown` every registered mod's
`shutdown()` has run exactly as often as it is registered, in reverse
registration order, and the removal of all detours precedes every
`shutdown()` call. -/
theorem core_lifecycle (registry : List Nat) :
    (Initialize registry).filterMap CoreEvent.initOf = registry ∧
    (∀ m, (Initialize registry).count (CoreEvent.modInit m) =
      registry.count m) ∧
    (Initialize registry).filterMap CoreEvent.shutdownOf = [] ∧
    (Shutdown registry).filterMap CoreEvent.shutdownOf = registry.reverse ∧
    (∀ m, (Shutdown registry).count (CoreEvent.modShutdown m) =
      registry.count m) ∧
    (Shutdown registry)[0]? = some CoreEvent.removeAllDetours ∧
    (∀ i : Nat, ∀ m : Nat,
      (Shutdown registry)[i]? = some (CoreEvent.modShutdown m) →
      ∃ j : Nat, j < i ∧ (Shutdown registry)[j]? =
        some CoreEvent.removeAllDetours) := by
  refine ⟨?_, ?_, ?_, ?_, ?_, by simp [Shutdown], ?_⟩
  · simp [Initialize, List.filterMap_append, List.filterMap_map,
      filterMap_initOf_map, CoreEvent.initOf]
  · intro m
    simp [Initialize, List.count_append, count_map_modInit]
  · simp [Initialize, List.filterMap_append, List.filterMap_map,
      filterMap_shutdownOf_map_init, CoreEvent.shutdownOf]
  · simp [Shutdown, CoreEvent.shutdownOf, List.filterMap_map,
      filterMap_shutdownOf_map]
  · intro m
    simp [Shutdown, List.count_cons, count_map_modShutdown]
  · intro i m h
    cases i with
    | zero => simp [Shutdown] at h
    | succ n => exact ⟨0, Nat.succ_pos n, by simp [Shutdown]⟩

/-- Witness for C2 at the spec's scenario S1: with mods 1, 2, 3 registered in
that order, `Initialize` initialises 1 then 2 then 3 and `Shutdown` removes
all detours first and then shuts down 3 then 2 then 1. -/
theorem core_lifecycle_witness :
    (Initialize [1, 2, 3]).filterMap CoreEvent.initOf = [1, 2, 3] ∧
    (Shutdown [1, 2, 3]).filterMap CoreEvent.shutdownOf = [3, 2, 1] ∧
    (Shutdown [1, 2, 3])[0]? = some CoreEvent.removeAllDetours ∧
    (Shutdown [1, 2, 3]).count (CoreEvent.modShutdown 2) = 1 := by
  have h := core_lifecycle [1, 2, 3]
  exact ⟨h.1, h.2.2.2.1, h.2.2.2.2.2.1, (h.2.2.2.2.1 2).trans (by decide)⟩

/-- Helper: the mods the bridge invokes form the leading segment of the
registration order of that length. -/
theorem dispatchIncoming_take
    (msg : Message) :
    ∀ mods : List (Nat × (Message → Bool)),
      (dispatchIncoming mods msg).1 =
        (mods.map Prod.fst).take (dispatchIncoming mods msg).1.length := by
  intro mods
  induction mods with
  | nil => rfl
  | cons p rest ih =>
    obtain ⟨id, h⟩ := p
    cases hh : h msg
    · simp [dispatchIncoming, hh]
    · simpa [dispatchIncoming, hh] using ih

/-- Helper: the original host handler receives the message exactly when
every registered handler passes it through. -/
theorem dispatchIncoming_original_iff (msg : Message) :
    ∀ mods : List (Nat × (Message → Bool)),
      ((dispatchIncoming mods msg).2 = some msg ↔
        ∀ p ∈ mods, p.2 msg = true) := by
  intro mods
  induction mods with
  | nil => simp [dispatchIncoming]
  | cons p rest ih =>
    obtain ⟨id, h⟩ := p
    cases hh : h msg
    · simp [dispatchIncoming, hh]
    · simp [dispatchIncoming, hh, ih]

/-- Helper: at the first suppressing handler the bridge stops — the mods
invoked are exactly the passing leading segment plus the suppressor, and the
original handler is not called. -/
theorem dispatchIncoming_stop (msg : Message)
    (q : Nat × (Message → Bool)) (post : List (Nat × (Message → Bool)))
    (hq : q.2 msg = false) :
    ∀ pre : List (Nat × (Message → Bool)), (∀ x ∈ pre, x.2 msg = true) →
      dispatchIncoming (pre ++ q :: post) msg =
        (pre.map Prod.fst ++ [q.1], none) := by
  intro pre
  induction pre with
  | nil =>
    intro _
    obtain ⟨qi, qh⟩ := q
    simp only [List.nil_append, dispatchIncoming]
    rw [if_neg (by simp_all)]
    rfl
  | cons x xs ih =>
    intro hall
    have hx : x.2 msg = true := hall x (List.mem_cons_self x xs)
    have := ih fun y hy => hall y (List.mem_cons_of_mem x hy)
    obtain ⟨xi, xh⟩ := x
    simp only [List.cons_append, dispatchIncoming]
    rw [if_pos (by simp_all)]
    simp [this]

/-- Claim C3: on an incoming message the bridge invokes the registered
handlers as a leading segment of the registration order (so, with distinct
mods, none more than once), stops at the first handler that suppresses —
invoking exactly the passing segment plus that handler and withholding the
original host handler — and hands the original host handler the unmodified
message exactly when every handler passed it through. -/
theorem bridge_dispatch (mods : List (Nat × (Message → Bool)))
    (msg : Message) :
    ((dispatchIncoming mods msg).1 =
      (mods.map Prod.fst).take (dispatchIncoming mods msg).1.length) ∧
    ((mods.map Prod.fst).Nodup → (dispatchIncoming mods msg).1.Nodup) ∧
    ((dispatchIncoming mods msg).2 = some msg ↔
      ∀ p ∈ mods, p.2 msg = true) ∧
    ((dispatchIncoming mods msg).2 = some msg ∨
      (dispatchIncoming mods msg).2 = none) ∧
    (∀ pre q post, mods = pre ++ q :: post →
      (∀ x ∈ pre, x.2 msg = true) → q.2 msg = false →
      dispatchIncoming mods msg = (pre.map Prod.fst ++ [q.1], none)) := by
  refine ⟨dispatchIncoming_take msg mods, fun hnd => ?_, ?_, ?_, ?_⟩
  · rw [dispatchIncoming_take msg mods]
    exact hnd.sublist (List.take_sublist _ _)
  · exact dispatchIncoming_original_iff msg mods
  · induction mods with
    | nil => exact Or.inl rfl
    | cons p rest ih =>
      obtain ⟨id, h⟩ := p
      cases hh : h msg
      · simp [dispatchIncoming, hh]
      · simpa [dispatchIncoming, hh] using ih
  · intro pre q post hsplit hall hq
    subst hsplit
    exact dispatchIncoming_stop msg q post hq pre hall

/-- Witness for C3 at the spec's scenario S2: with mod 1 passing through and
mod 2 suppressing, delivering opcode 0x1234 invokes 1 then 2 and withholds
the original handler; with only mod 1 registered the original handler
receives the unmodified message. -/
theorem bridge_dispatch_witness :
    dispatchIncoming [(1, fun _ => true), (2, fun _ => false)]
        ⟨0x1234, [], 0⟩ = ([1, 2], none) ∧
    (dispatchIncoming [(1, fun _ => true)] ⟨0x1234, [], 0⟩).2 =
      some ⟨0x1234, [], 0⟩ := by
  constructor
  · exact (bridge_dispatch [(1, fun _ => true), (2, fun _ => false)]
      ⟨0x1234, [], 0⟩).2.2.2.2 [(1, fun _ => true)] (2, fun _ => false) []
      rfl (by simp) rfl
  · exact (bridge_dispatch [(1, fun _ => true)] ⟨0x1234, [], 0⟩).2.2.1.mpr
      (by simp)

end Core

end Rof2
